import Mathlib

/-!
Shallow embedding of the local buffering and synchronization subsystem
("the Logger") of the connectordb python client, `src/connectordb/logger.py`.

The sqlite store is modelled by explicit lists:
  * `cache`   : the pending-datapoint table `(stream, timestamp, jsondata)`;
    rows are kept in insertion order, `INSERT` appends at the end.
  * `streamsTable` : the `streams` table `(stream PRIMARY KEY, jsonschema)`,
    an association list whose upsert replaces in place (row identity by key).
  * the single `metadata` row as plain fields.

Python / JSON values are abstracted by a `PyEnv`: a carrier type together
with `json.dumps` / `json.loads`, the `None` value (`json.dumps None = "null"`)
and the external `jsonschema.validate` capability (modelled as a boolean test;
`true` means validation passed, `false` means it raised).

Timestamps (`time.time()`, sqlite REAL) are modelled as natural-number clock
readings; only their linear order matters to the code under study.
-/

namespace ConnectorDBLogger

/-- Abstraction of the python value universe and the two external
capabilities the Logger consumes: JSON serialization (`json.dumps` /
`json.loads`) and schema validation (`jsonschema.validate`, modelled as a
boolean: `false` means the call raised). `pyNone` is python `None`, the
value stored as the schema when a stream is registered without one. -/
structure PyEnv where
  Val : Type
  dumps : Val → String
  loads : String → Val
  pyNone : Val
  validate : Val → Val → Bool

/-- One row of the `cache` table: a pending, not-yet-synced datapoint.
`jsondata` holds `json.dumps` of the inserted value. -/
structure Pt where
  stream : String
  timestamp : Nat
  jsondata : String
deriving DecidableEq, Repr

/-- A datapoint as shipped to the server: the dict `{"t": ..., "d": ...}`
built in `Logger.sync`. -/
abbrev DP (env : PyEnv) := Nat × env.Val

/-- One remote append performed by a sync cycle: the stream name and the
`datapointArray` passed to `insert_array`. -/
abbrev Upload (env : PyEnv) := String × List (DP env)

/-- The durable sqlite state: the three tables created in `Logger.__init__`. -/
structure LoggerDB where
  cache : List Pt
  streamsTable : List (String × String)
  apikeyDB : String
  serverurlDB : String
  lastsynctimeDB : Nat
  syncperiodDB : Nat
  userdatajson : String
deriving DecidableEq, Repr

/-- The in-process Logger state: the database plus the in-memory caches
(`self.streams`, `self.__apikey`, `self.__serverurl`, `self.__lastsync`,
`self.__syncperiod`) that `__init__` loads and the setters keep in step. -/
structure LoggerState (env : PyEnv) where
  db : LoggerDB
  streams : List (String × env.Val)
  apikey : String
  serverurl : String
  lastsync : Nat
  syncperiod : Nat

/-- Python dict lookup `d[k]` (as an option), also used for the membership
test `streamname not in self.streams`. -/
def lookupStream {α : Type} (l : List (String × α)) (s : String) : Option α :=
  (l.find? (fun r => r.1 = s)).map Prod.snd

/-- Upsert into an association list, replacing in place when the key is
present.  This is both python dict assignment `d[k] = v` (which keeps the
key's position) and `INSERT OR REPLACE` into a table keyed by primary key
(row identity is by key; row order inside a table is immaterial). -/
def upsert {α : Type} (l : List (String × α)) (s : String) (v : α) : List (String × α) :=
  match l with
  | [] => [(s, v)]
  | (k, w) :: t => if k = s then (s, v) :: t else (k, w) :: upsert t s v

/-- `len(logger)`: `SELECT COUNT() FROM cache`. -/
def pendingCount {env : PyEnv} (st : LoggerState env) : Nat :=
  st.db.cache.length

/-- `Logger.addStream_force`: upsert the stream row
(`INSERT OR REPLACE INTO streams VALUES (?, json.dumps(schema))`) and then
mirror it in the in-memory dict `self.streams[streamname] = schema`. -/
def addStream_force (env : PyEnv) (st : LoggerState env) (s : String) (schema : env.Val) :
    LoggerState env :=
  { st with
    db := { st.db with streamsTable := upsert st.db.streamsTable s (env.dumps schema) }
    streams := upsert st.streams s schema }

/-- The exceptions `Logger.insert` can raise: the explicit
`Exception("The stream '%s' was not found")` and whatever
`jsonschema.validate` raises on a failing value. -/
inductive InsertErr where
  | streamNotFound (name : String)
  | validationFailed
deriving DecidableEq, Repr

/-- `Logger.insert(streamname, value)`: raise if the stream is not in the
in-memory dict; run `validate(value, self.streams[streamname])`; on success
append `(streamname, time.time(), json.dumps(value))` to the cache table.
The local clock reading is the explicit argument `now`; no remote endpoint
is consulted (the definition takes none). -/
def insert (env : PyEnv) (st : LoggerState env) (s : String) (v : env.Val) (now : Nat) :
    Except InsertErr (LoggerState env) :=
  match lookupStream st.streams s with
  | none => .error (.streamNotFound s)
  | some schema =>
    if env.validate v schema then
      .ok { st with db := { st.db with cache := st.db.cache ++ [⟨s, now, env.dumps v⟩] } }
    else
      .error .validationFailed

/-- The abstract remote endpoint as `Logger.sync` exercises it:
whether the lazy `ConnectorDB(...)` construction succeeds
(`self.connectordb`, which pings on construction), whether the explicit
`cdb.ping()` succeeds, per-stream existence (`s.exists()`), and whether a
given `insert_array` call succeeds. -/
structure Remote (env : PyEnv) where
  connectOk : Bool
  pingOk : Bool
  streamExists : String → Bool
  insertOk : String → List (DP env) → Bool

/-- The exceptions a sync cycle can raise. -/
inductive SyncErr where
  | connectFailed
  | pingFailed
  | streamMissing (name : String)
  | insertFailed (name : String)
deriving DecidableEq, Repr

/-- How a call to `Logger.sync` terminates, seen from the caller:
normal return after a clean cycle, normal return because the failure
handler returned a falsy value (`suppressed` records the swallowed error),
the original exception propagating (`raised`), or an exception thrown by
the failure handler itself propagating in its place. -/
inductive SyncOutcome where
  | success
  | suppressed (e : SyncErr)
  | raised (e : SyncErr)
  | handlerRaised (msg : String)
deriving DecidableEq, Repr

/-- Comparison by timestamp, the `ORDER BY timestamp ASC` order. -/
def tsLE (p q : Pt) : Prop := p.timestamp ≤ q.timestamp

instance : DecidableRel tsLE := fun p q => inferInstanceAs (Decidable (p.timestamp ≤ q.timestamp))

instance : IsTotal Pt tsLE := ⟨fun p q => Nat.le_total p.timestamp q.timestamp⟩

instance : IsTrans Pt tsLE := ⟨fun _ _ _ h h2 => Nat.le_trans h h2⟩

instance : IsRefl Pt tsLE := ⟨fun p => Nat.le_refl p.timestamp⟩

/-- `SELECT * FROM cache WHERE stream=? ORDER BY timestamp ASC`. -/
def cacheSelect (cache : List Pt) (s : String) : List Pt :=
  List.insertionSort tsLE (cache.filter (fun p => p.stream = s))

/-- `DELETE FROM cache WHERE stream=? AND timestamp <=?`. -/
def cacheDelete (cache : List Pt) (s : String) (t : Nat) : List Pt :=
  cache.filter (fun p => ¬(p.stream = s ∧ p.timestamp ≤ t))

/-- Turn one cache row into the uploaded dict `{"t": dp[1], "d": json.loads(dp[2])}`. -/
def toDP (env : PyEnv) (p : Pt) : DP env :=
  (p.timestamp, env.loads p.jsondata)

/-- One iteration of the per-stream loop of `Logger.sync` (lines 144-167),
with the data race made explicit: `extra` is the list of cache rows a
concurrent `Logger.insert` appends between the `SELECT` that reads the
batch and the `DELETE` that trims it (`Logger.insert` does not take
`synclock`, so such rows can land mid-iteration; the sync loop itself
corresponds to `extra = []`).  Returns the cache after the iteration or
the exception it raised. -/
def streamCycle (env : PyEnv) (remote : Remote env) (extra : List Pt)
    (cache : List Pt) (s : String) : Except SyncErr (List Pt) :=
  if remote.streamExists s then
    let batch := cacheSelect cache s
    match batch.getLast? with
    | none => .ok (cache ++ extra)
    | some lastp =>
      if remote.insertOk s (batch.map (toDP env)) then
        .ok (cacheDelete (cache ++ extra) s lastp.timestamp)
      else
        .error (.insertFailed s)
  else
    .error (.streamMissing s)

/-- The `for stream in self.streams` loop of `Logger.sync`: for each
registered stream in dict order, check remote existence, read the pending
batch in ascending timestamp order, and when the batch is non-empty call
`insert_array` and, on success, delete every row of that stream with
timestamp at most the last uploaded one.  Returns the cache after the
loop, the uploads performed in order, and the exception that aborted the
loop, if any. -/
def syncLoop (env : PyEnv) (remote : Remote env) :
    List String → List Pt → List Pt × List (Upload env) × Option SyncErr
  | [], cache => (cache, [], none)
  | s :: rest, cache =>
    if remote.streamExists s then
      let batch := cacheSelect cache s
      match batch.getLast? with
      | none => syncLoop env remote rest cache
      | some lastp =>
        if remote.insertOk s (batch.map (toDP env)) then
          let r := syncLoop env remote rest (cacheDelete cache s lastp.timestamp)
          (r.1, (s, batch.map (toDP env)) :: r.2.1, r.2.2)
        else
          (cache, [], some (.insertFailed s))
    else
      (cache, [], some (.streamMissing s))

/-- Replace the cache table. -/
def setCache (env : PyEnv) (st : LoggerState env) (c : List Pt) : LoggerState env :=
  { st with db := { st.db with cache := c } }

/-- The `lastsynctime` property setter: update the in-memory value and
`UPDATE metadata SET lastsynctime=?`. -/
def setLastsynctime (env : PyEnv) (st : LoggerState env) (v : Nat) : LoggerState env :=
  { st with lastsync := v, db := { st.db with lastsynctimeDB := v } }

/-- The `apikey` property setter. -/
def setApikey (env : PyEnv) (st : LoggerState env) (v : String) : LoggerState env :=
  { st with apikey := v, db := { st.db with apikeyDB := v } }

/-- The `serverurl` property setter. -/
def setServerurl (env : PyEnv) (st : LoggerState env) (v : String) : LoggerState env :=
  { st with serverurl := v, db := { st.db with serverurlDB := v } }

/-- The `syncperiod` property setter (the timer rescheduling it triggers
lives in the scheduler model below). -/
def setSyncperiod (env : PyEnv) (st : LoggerState env) (v : Nat) : LoggerState env :=
  { st with syncperiod := v, db := { st.db with syncperiodDB := v } }

/-- The `data` property setter: `UPDATE metadata SET userdatajson=?`
(this field has no in-memory mirror). -/
def setData (env : PyEnv) (st : LoggerState env) (v : String) : LoggerState env :=
  { st with db := { st.db with userdatajson := v } }

/-- The `try:` block of `Logger.sync`: obtain the endpoint handle, ping,
run the per-stream loop, and on full success set `lastsynctime = time.time()`.
Returns the state as left behind, the uploads performed, and the exception
that escaped the block, if any. -/
def syncAttempt (env : PyEnv) (remote : Remote env) (st : LoggerState env) (now : Nat) :
    LoggerState env × List (Upload env) × Option SyncErr :=
  if remote.connectOk then
    if remote.pingOk then
      let r := syncLoop env remote (st.streams.map Prod.fst) st.db.cache
      match r.2.2 with
      | none => (setLastsynctime env (setCache env st r.1) now, r.2.1, none)
      | some e => (setCache env st r.1, r.2.1, some e)
    else (st, [], some .pingFailed)
  else (st, [], some .connectFailed)

/-- `Logger.sync`: run the attempt; on an exception consult the optional
failure handler `onsyncfail` (which receives the Logger and may itself
raise, modelled by `Except`), re-raising exactly when there is no handler
or the handler returns `true`. -/
def sync (env : PyEnv) (remote : Remote env)
    (onsyncfail : Option (LoggerState env → Except String Bool))
    (st : LoggerState env) (now : Nat) :
    SyncOutcome × LoggerState env × List (Upload env) :=
  match syncAttempt env remote st now with
  | (st2, ups, none) => (.success, st2, ups)
  | (st2, ups, some e) =>
    match onsyncfail with
    | none => (.raised e, st2, ups)
    | some h =>
      match h st2 with
      | .error msg => (.handlerRaised msg, st2, ups)
      | .ok true => (.raised e, st2, ups)
      | .ok false => (.suppressed e, st2, ups)

/-- Did the call to `sync()` return normally (no exception reached the caller)? -/
def SyncOutcome.isNormal : SyncOutcome → Bool
  | .success => true
  | .suppressed _ => true
  | .raised _ => false
  | .handlerRaised _ => false

/-! ## The cache-consistency invariant and the public mutating operations -/

/-- The invariant the spec states for the Stream Registry and Configuration
Facet: the in-memory dict `self.streams` mirrors the `streams` table (its
rows parsed with `json.loads`), and the cached `apikey` / `serverurl` /
`lastsynctime` / `syncperiod` values equal the metadata row. -/
def consistent (env : PyEnv) (st : LoggerState env) : Prop :=
  st.streams = st.db.streamsTable.map (fun r => (r.1, env.loads r.2))
  ∧ st.apikey = st.db.apikeyDB
  ∧ st.serverurl = st.db.serverurlDB
  ∧ st.lastsync = st.db.lastsynctimeDB
  ∧ st.syncperiod = st.db.syncperiodDB

/-- The public state-mutating operations of the Logger facade. -/
inductive LoggerOp (env : PyEnv) where
  | addStreamForceOp (s : String) (schema : env.Val)
  | insertOp (s : String) (v : env.Val) (now : Nat)
  | syncOp (remote : Remote env) (onsyncfail : Option (LoggerState env → Except String Bool))
      (now : Nat)
  | setApikeyOp (v : String)
  | setServerurlOp (v : String)
  | setSyncperiodOp (v : Nat)
  | setLastsynctimeOp (v : Nat)
  | setDataOp (v : String)

/-- Run one public operation to completion; an operation that raises
(a failed `insert`, a `sync` whose exception propagates) leaves the caller
with the state as the operation left it. -/
def applyOp (env : PyEnv) (op : LoggerOp env) (st : LoggerState env) : LoggerState env :=
  match op with
  | .addStreamForceOp s schema => addStream_force env st s schema
  | .insertOp s v now =>
    match insert env st s v now with
    | .ok st2 => st2
    | .error _ => st
  | .syncOp remote h now => (sync env remote h st now).2.1
  | .setApikeyOp v => setApikey env st v
  | .setServerurlOp v => setServerurl env st v
  | .setSyncperiodOp v => setSyncperiod env st v
  | .setLastsynctimeOp v => setLastsynctime env st v
  | .setDataOp v => setData env st v

/-! ## The scheduler

`Logger.start` / `Logger.stop` / `Logger.__setsync` / `Logger.__runsyncer`
manage one `threading.Timer` stored in `self.syncthread`.  The interleaving
of the caller's thread with the timer thread is modelled as a small
transition system: `syncthread` is `none` (the field is `None`) or holds
the timer's status (`pending` = armed and cancellable, `expired` = it has
fired and `cancel()` on it is a no-op), and `inCycle` records that a
timer-triggered `__runsyncer` body is between firing and its final
`__setsync` call. -/

/-- Status of the `threading.Timer` object held in `self.syncthread`. -/
inductive TimerStatus where
  | pending
  | expired
deriving DecidableEq, Repr

/-- The scheduler-visible state. -/
structure SchedState where
  syncthread : Option TimerStatus
  inCycle : Bool
deriving DecidableEq, Repr

/-- Scheduler state at Logger construction: `self.syncthread = None`. -/
def schedInit : SchedState := ⟨none, false⟩

/-- The events the scheduler reacts to: the public `start()` and `stop()`
calls, the armed timer firing (which begins a `__runsyncer` body), and a
running `__runsyncer` body finishing its sync and executing `__setsync`. -/
inductive SchedEv where
  | start
  | stop
  | timerFire
  | cycleComplete
deriving DecidableEq, Repr

/-- `Logger.__setsync`: cancel the current timer if any is stored, then
store a freshly armed one. -/
def setsyncStep (st : SchedState) : SchedState :=
  { st with syncthread := some .pending }

/-- One transition.  `start` is a warned no-op when `self.syncthread` is
not `None`; `stop` cancels and clears `self.syncthread` (never touching a
cycle already running); `timerFire` fires an armed timer, beginning a sync
cycle; `cycleComplete` ends the running `__runsyncer` body, which
unconditionally calls `__setsync`, re-arming the timer. -/
def schedStep (st : SchedState) : SchedEv → SchedState
  | .start => if st.syncthread.isSome then st else setsyncStep st
  | .stop => { st with syncthread := none }
  | .timerFire =>
    if st.syncthread = some .pending then { syncthread := some .expired, inCycle := true }
    else st
  | .cycleComplete => if st.inCycle then setsyncStep { st with inCycle := false } else st

/-- Run a sequence of events. -/
def schedRun (st : SchedState) : List SchedEv → SchedState
  | [] => st
  | e :: es => schedRun (schedStep st e) es

/-- A (further) sync cycle can begin: an armed timer is pending. -/
def fireEnabled (st : SchedState) : Bool :=
  st.syncthread = some .pending

/-! ## Concrete instances used by witnesses and counterexamples -/

/-- A concrete value universe for witnesses: values are their own JSON
text, so `loads (dumps v) = v` holds definitionally, `None` is `"null"`,
and validation accepts everything (schemas permitting all values). -/
def strEnv : PyEnv :=
  { Val := String, dumps := id, loads := id, pyNone := "null",
    validate := fun _ _ => true }

/-- A concrete value universe whose validator rejects every value when
handed the `None` schema, as `jsonschema.validate(value, None)` does
(it raises before ever accepting), and accepts otherwise. -/
def nullRejectEnv : PyEnv :=
  { Val := String, dumps := id, loads := id, pyNone := "null",
    validate := fun _ sch => !(sch == "null") }

/-- An empty, freshly initialized Logger state over `strEnv` (the defaults
written by `Logger.__init__` on first creation, clock at 0). -/
def st0 : LoggerState strEnv :=
  { db := { cache := [], streamsTable := [], apikeyDB := "",
            serverurlDB := "https://connectordb.com", lastsynctimeDB := 0,
            syncperiodDB := 600, userdatajson := "\x7b\x7d" }
    streams := [], apikey := "", serverurl := "https://connectordb.com",
    lastsync := 0, syncperiod := 600 }

/-- A fully reachable remote over `strEnv`: connection, ping, existence and
every append succeed. -/
def remoteOk : Remote strEnv :=
  { connectOk := true, pingOk := true,
    streamExists := fun _ => true, insertOk := fun _ _ => true }

/-- A remote whose ping fails. -/
def remotePingFail : Remote strEnv :=
  { connectOk := true, pingOk := false,
    streamExists := fun _ => true, insertOk := fun _ _ => true }

/-- A remote on which the stream `"gone"` does not exist but everything
else works. -/
def remoteGoneMissing : Remote strEnv :=
  { connectOk := true, pingOk := true,
    streamExists := fun s => !(s == "gone"), insertOk := fun _ _ => true }

/-- A remote that cannot even be connected to. -/
def remoteConnectFail : Remote strEnv :=
  { connectOk := false, pingOk := false,
    streamExists := fun _ => true, insertOk := fun _ _ => true }

/-- `st0` with one registered stream `"temp"` of schema `"tsch"`. -/
def stTemp : LoggerState strEnv := addStream_force strEnv st0 "temp" "tsch"

/-- A consistent state with streams `"temp"` and `"gone"` registered
(in that order) and three pending points: two for `"temp"` inserted out
of timestamp order, one for `"gone"`. -/
def stPending : LoggerState strEnv :=
  { db := { cache := [⟨"temp", 5, "v1"⟩, ⟨"temp", 3, "v2"⟩, ⟨"gone", 4, "w"⟩],
            streamsTable := [("temp", "tsch"), ("gone", "gsch")], apikeyDB := "k",
            serverurlDB := "https://connectordb.com", lastsynctimeDB := 0,
            syncperiodDB := 600, userdatajson := "\x7b\x7d" }
    streams := [("temp", "tsch"), ("gone", "gsch")], apikey := "k",
    serverurl := "https://connectordb.com", lastsync := 0, syncperiod := 600 }

/-- An empty Logger state over `nullRejectEnv`. -/
def stNR : LoggerState nullRejectEnv :=
  { db := { cache := [], streamsTable := [], apikeyDB := "",
            serverurlDB := "https://connectordb.com", lastsynctimeDB := 0,
            syncperiodDB := 600, userdatajson := "\x7b\x7d" }
    streams := [], apikey := "", serverurl := "https://connectordb.com",
    lastsync := 0, syncperiod := 600 }

/-- `stNR` with the stream `"t"` registered without a schema
(`addStream_force(streamname)` with the default `schema=None`). -/
def stNRnull : LoggerState nullRejectEnv :=
  addStream_force nullRejectEnv stNR "t" nullRejectEnv.pyNone

/-- `st0` with the stream `"t"` registered without a schema, over the
all-accepting validator. -/
def stNull : LoggerState strEnv := addStream_force strEnv st0 "t" strEnv.pyNone

/-- A failure handler returning `False` (suppress). -/
def handlerFalse : LoggerState strEnv → Except String Bool := fun _ => .ok false

/-- A failure handler returning `True` (re-raise). -/
def handlerTrue : LoggerState strEnv → Except String Bool := fun _ => .ok true

/-- A failure handler that itself raises. -/
def handlerBoom : LoggerState strEnv → Except String Bool := fun _ => .error "boom"

/-! ## Basic lemmas about the cache primitives -/

theorem mem_cacheSelect {c : List Pt} {s : String} {p : Pt} :
    p ∈ cacheSelect c s ↔ p ∈ c ∧ p.stream = s := by
  unfold cacheSelect
  rw [(List.perm_insertionSort tsLE _).mem_iff, List.mem_filter]
  simp

theorem cacheSelect_sorted (c : List Pt) (s : String) :
    (cacheSelect c s).Sorted tsLE :=
  List.sorted_insertionSort tsLE _

theorem mem_cacheDelete {c : List Pt} {s : String} {t : Nat} {p : Pt} :
    p ∈ cacheDelete c s t ↔ p ∈ c ∧ ¬(p.stream = s ∧ p.timestamp ≤ t) := by
  unfold cacheDelete
  rw [List.mem_filter]
  constructor
  · rintro ⟨h1, h2⟩
    exact ⟨h1, of_decide_eq_true h2⟩
  · rintro ⟨h1, h2⟩
    exact ⟨h1, decide_eq_true h2⟩

theorem cacheDelete_subset {c : List Pt} {s : String} {t : Nat} {p : Pt}
    (h : p ∈ cacheDelete c s t) : p ∈ c :=
  (mem_cacheDelete.mp h).1

theorem mem_of_getLastOpt {l : List Pt} {x : Pt} (h : l.getLast? = some x) : x ∈ l := by
  induction l with
  | nil => simp at h
  | cons a t ih =>
    cases t with
    | nil => simp at h; simp [h]
    | cons b t2 =>
      rw [List.getLast?_cons_cons] at h
      exact List.mem_cons_of_mem a (ih h)

/-- In a list sorted by timestamp, every element's timestamp is at most the
last element's. -/
theorem sorted_le_getLast {l : List Pt} (hs : l.Sorted tsLE) {p lastp : Pt}
    (hp : p ∈ l) (hl : l.getLast? = some lastp) : p.timestamp ≤ lastp.timestamp := by
  induction l with
  | nil => simp at hp
  | cons a t ih =>
    cases t with
    | nil =>
      simp at hl hp
      simp [hp, hl]
    | cons b t2 =>
      rw [List.getLast?_cons_cons] at hl
      rw [List.sorted_cons] at hs
      rcases List.mem_cons.mp hp with rfl | hp2
      · exact Nat.le_trans (hs.1 lastp (mem_of_getLastOpt hl)) (Nat.le_refl _)
      · exact ih hs.2 hp2 hl

/-- Every pending point of the batch read for a stream is deleted by the
trailing `DELETE ... timestamp <= last`. -/
theorem cacheSelect_cacheDelete_self {c : List Pt} {s : String} {lastp : Pt}
    (hl : (cacheSelect c s).getLast? = some lastp) :
    cacheSelect (cacheDelete c s lastp.timestamp) s = [] := by
  rw [List.eq_nil_iff_forall_not_mem]
  intro p hp
  rw [mem_cacheSelect, mem_cacheDelete] at hp
  exact hp.1.2 ⟨hp.2, sorted_le_getLast (cacheSelect_sorted c s)
    (mem_cacheSelect.mpr ⟨hp.1.1, hp.2⟩) hl⟩

/-- Deleting rows of another stream does not change a stream's batch. -/
theorem cacheSelect_cacheDelete_ne {c : List Pt} {s s2 : String} {t : Nat}
    (h : s ≠ s2) : cacheSelect (cacheDelete c s2 t) s = cacheSelect c s := by
  unfold cacheSelect cacheDelete
  rw [List.filter_filter]
  congr 1
  apply List.filter_congr
  intro p _
  by_cases hp : p.stream = s
  · have hns2 : ¬s = s2 := h
    simp [hp, hns2]
  · simp [hp]

theorem cacheSelect_nonempty_of_mem {c : List Pt} {s : String} {p : Pt}
    (hp : p ∈ c) (hs : p.stream = s) : cacheSelect c s ≠ [] := by
  intro h
  rw [List.eq_nil_iff_forall_not_mem] at h
  exact h p (mem_cacheSelect.mpr ⟨hp, hs⟩)

theorem cacheSelect_eq_nil_iff {c : List Pt} {s : String} :
    cacheSelect c s = [] ↔ ∀ p ∈ c, p.stream ≠ s := by
  rw [List.eq_nil_iff_forall_not_mem]
  constructor
  · intro h p hp hs
    exact h p (mem_cacheSelect.mpr ⟨hp, hs⟩)
  · intro h p hp
    rw [mem_cacheSelect] at hp
    exact h p hp.1 hp.2

/-! ## Structural lemmas about the per-stream sync loop -/

/-- The loop only ever deletes cache rows, never adds any. -/
theorem syncLoop_cache_subset (env : PyEnv) (remote : Remote env) :
    ∀ (names : List String) (c : List Pt) (p : Pt),
    p ∈ (syncLoop env remote names c).1 → p ∈ c := by
  intro names
  induction names with
  | nil =>
    intro c p hp
    simpa [syncLoop] using hp
  | cons s rest ih =>
    intro c p hp
    by_cases hex : remote.streamExists s = true
    · rcases hgl : (cacheSelect c s).getLast? with _ | lastp
      · simp only [syncLoop, hex, if_true, hgl] at hp
        exact ih c p hp
      · by_cases hins : remote.insertOk s ((cacheSelect c s).map (toDP env)) = true
        · simp only [syncLoop, hex, if_true, hgl, hins] at hp
          exact cacheDelete_subset (ih _ p hp)
        · rw [Bool.not_eq_true] at hins
          simp only [syncLoop, hex, if_true, hgl, hins, Bool.false_eq_true, if_false] at hp
          exact hp
    · rw [Bool.not_eq_true] at hex
      simp only [syncLoop, hex, Bool.false_eq_true, if_false] at hp
      exact hp

/-- A cache row whose stream receives no upload in the cycle survives the
cycle: deletions only happen to streams that were just uploaded. -/
theorem syncLoop_survives (env : PyEnv) (remote : Remote env) :
    ∀ (names : List String) (c : List Pt) (p : Pt), p ∈ c →
    (∀ u ∈ (syncLoop env remote names c).2.1, p.stream ≠ u.1) →
    p ∈ (syncLoop env remote names c).1 := by
  intro names
  induction names with
  | nil =>
    intro c p hp _
    simpa [syncLoop] using hp
  | cons s rest ih =>
    intro c p hp hups
    by_cases hex : remote.streamExists s = true
    · rcases hgl : (cacheSelect c s).getLast? with _ | lastp
      · simp only [syncLoop, hex, if_true, hgl] at hups ⊢
        exact ih c p hp hups
      · by_cases hins : remote.insertOk s ((cacheSelect c s).map (toDP env)) = true
        · simp only [syncLoop, hex, if_true, hgl, hins] at hups ⊢
          have hne : p.stream ≠ s :=
            hups (s, (cacheSelect c s).map (toDP env)) (List.mem_cons_self _ _)
          refine ih _ p (mem_cacheDelete.mpr ⟨hp, ?_⟩) ?_
          · rintro ⟨h1, -⟩
            exact hne h1
          · intro u hu
            exact hups u (List.mem_cons_of_mem _ hu)
        · rw [Bool.not_eq_true] at hins
          simp only [syncLoop, hex, if_true, hgl, hins, Bool.false_eq_true, if_false] at hups ⊢
          exact hp
    · rw [Bool.not_eq_true] at hex
      simp only [syncLoop, hex, Bool.false_eq_true, if_false] at hups ⊢
      exact hp

/-- Every upload of a cycle is for a stream the loop was iterating over. -/
theorem syncLoop_upload_streams (env : PyEnv) (remote : Remote env) :
    ∀ (names : List String) (c : List Pt) (u : Upload env),
    u ∈ (syncLoop env remote names c).2.1 → u.1 ∈ names := by
  intro names
  induction names with
  | nil =>
    intro c u hu
    simp [syncLoop] at hu
  | cons s rest ih =>
    intro c u hu
    by_cases hex : remote.streamExists s = true
    · rcases hgl : (cacheSelect c s).getLast? with _ | lastp
      · simp only [syncLoop, hex, if_true, hgl] at hu
        exact List.mem_cons_of_mem _ (ih c u hu)
      · by_cases hins : remote.insertOk s ((cacheSelect c s).map (toDP env)) = true
        · simp only [syncLoop, hex, if_true, hgl, hins] at hu
          rcases List.mem_cons.mp hu with rfl | hu2
          · exact List.mem_cons_self _ _
          · exact List.mem_cons_of_mem _ (ih _ u hu2)
        · rw [Bool.not_eq_true] at hins
          simp only [syncLoop, hex, if_true, hgl, hins, Bool.false_eq_true, if_false] at hu
          simp at hu
    · rw [Bool.not_eq_true] at hex
      simp only [syncLoop, hex, Bool.false_eq_true, if_false] at hu
      simp at hu

/-- A batch with a last element is non-empty (as `isEmpty`). -/
theorem isEmpty_false_of_getLastOpt {l : List Pt} {x : Pt} (h : l.getLast? = some x) :
    l.isEmpty = false := by
  rw [← Bool.not_eq_true, List.isEmpty_iff]
  intro hnil
  rw [hnil] at h
  exact Option.noConfusion h

/-- Full characterization of a cycle in which the endpoint accepts every
append and every iterated stream exists: no exception, one upload per
stream with a non-empty pending batch (its batch as read from the starting
cache, in iteration order), and every iterated stream is fully drained. -/
theorem syncLoop_success (env : PyEnv) (remote : Remote env) :
    ∀ (names : List String) (c : List Pt),
    (∀ s ∈ names, remote.streamExists s = true) →
    (∀ s arr, remote.insertOk s arr = true) →
    names.Nodup →
    (syncLoop env remote names c).2.2 = none ∧
    (syncLoop env remote names c).2.1 =
      (names.filter (fun s => !(cacheSelect c s).isEmpty)).map
        (fun s => (s, (cacheSelect c s).map (toDP env))) ∧
    ∀ s ∈ names, cacheSelect (syncLoop env remote names c).1 s = [] := by
  intro names
  induction names with
  | nil =>
    intro c _ _ _
    refine ⟨rfl, rfl, ?_⟩
    intro s hs
    simp at hs
  | cons s rest ih =>
    intro c hex hins hnd
    have hexs : remote.streamExists s = true := hex s (List.mem_cons_self _ _)
    have hnds : s ∉ rest := (List.nodup_cons.mp hnd).1
    have hndr : rest.Nodup := (List.nodup_cons.mp hnd).2
    have hexr : ∀ s2 ∈ rest, remote.streamExists s2 = true :=
      fun s2 h2 => hex s2 (List.mem_cons_of_mem _ h2)
    rcases hgl : (cacheSelect c s).getLast? with _ | lastp
    · have hbe : cacheSelect c s = [] := List.getLast?_eq_none_iff.mp hgl
      simp only [syncLoop, hexs, if_true, hgl]
      obtain ⟨ha, hb, hc⟩ := ih c hexr hins hndr
      refine ⟨ha, ?_, ?_⟩
      · rw [hb, List.filter_cons]
        simp [hbe]
      · intro s2 hs2
        rcases List.mem_cons.mp hs2 with rfl | h2
        · rw [cacheSelect_eq_nil_iff]
          intro p hp hps
          exact cacheSelect_nonempty_of_mem
            (syncLoop_cache_subset env remote rest c p hp) hps hbe
        · exact hc s2 h2
    · have hinss : remote.insertOk s ((cacheSelect c s).map (toDP env)) = true := hins _ _
      simp only [syncLoop, hexs, if_true, hgl, hinss]
      obtain ⟨ha, hb, hc⟩ := ih (cacheDelete c s lastp.timestamp) hexr hins hndr
      have hsel : ∀ s2 ∈ rest,
          cacheSelect (cacheDelete c s lastp.timestamp) s2 = cacheSelect c s2 :=
        fun s2 h2 => cacheSelect_cacheDelete_ne (fun he => hnds (he ▸ h2))
      refine ⟨ha, ?_, ?_⟩
      · rw [hb, List.filter_cons]
        have hne : (cacheSelect c s).isEmpty = false := isEmpty_false_of_getLastOpt hgl
        simp only [hne, Bool.not_false, if_true, List.map_cons]
        congr 1
        rw [List.filter_congr (fun s2 h2 => by rw [hsel s2 h2])]
        apply List.map_congr_left
        intro s2 h2
        rw [hsel s2 (List.mem_of_mem_filter h2)]
      · intro s2 hs2
        rcases List.mem_cons.mp hs2 with rfl | h2
        · rw [cacheSelect_eq_nil_iff]
          intro p hp hps
          exact cacheSelect_nonempty_of_mem
            (syncLoop_cache_subset env remote rest _ p hp) hps
            (cacheSelect_cacheDelete_self hgl)
        · exact hc s2 h2

/-- A cycle over streams that all exist remotely and none of which has a
pending point does nothing: same cache, no uploads, no exception. -/
theorem syncLoop_drained (env : PyEnv) (remote : Remote env) :
    ∀ (names : List String) (c : List Pt),
    (∀ s ∈ names, remote.streamExists s = true) →
    (∀ s ∈ names, cacheSelect c s = []) →
    syncLoop env remote names c = (c, [], none) := by
  intro names
  induction names with
  | nil =>
    intro c _ _
    rfl
  | cons s rest ih =>
    intro c hex hsel
    have hexs : remote.streamExists s = true := hex s (List.mem_cons_self _ _)
    have hgl : (cacheSelect c s).getLast? = none := by
      rw [hsel s (List.mem_cons_self _ _)]
      rfl
    simp only [syncLoop, hexs, if_true, hgl]
    exact ih c (fun s2 h2 => hex s2 (List.mem_cons_of_mem _ h2))
      (fun s2 h2 => hsel s2 (List.mem_cons_of_mem _ h2))

/-- Characterization of a cycle that hits a registered stream missing
remotely, after a prefix of healthy streams: the loop raises naming that
stream, the uploads are exactly those of the prefix, and every prefix
stream is already drained when the exception aborts the cycle. -/
theorem syncLoop_error_at (env : PyEnv) (remote : Remote env) :
    ∀ (pre : List String) (bad : String) (post : List String) (c : List Pt),
    (∀ s ∈ pre, remote.streamExists s = true) →
    (∀ s arr, remote.insertOk s arr = true) →
    remote.streamExists bad = false →
    (pre ++ bad :: post).Nodup →
    (syncLoop env remote (pre ++ bad :: post) c).2.2 = some (.streamMissing bad) ∧
    (syncLoop env remote (pre ++ bad :: post) c).2.1 =
      (pre.filter (fun s => !(cacheSelect c s).isEmpty)).map
        (fun s => (s, (cacheSelect c s).map (toDP env))) ∧
    ∀ s ∈ pre, cacheSelect (syncLoop env remote (pre ++ bad :: post) c).1 s = [] := by
  intro pre
  induction pre with
  | nil =>
    intro bad post c _ _ hbad _
    rw [List.nil_append]
    have hstep : syncLoop env remote (bad :: post) c = (c, [], some (.streamMissing bad)) := by
      simp only [syncLoop, hbad, Bool.false_eq_true, if_false]
    rw [hstep]
    refine ⟨rfl, rfl, ?_⟩
    intro s hs
    simp at hs
  | cons s pre2 ih =>
    intro bad post c hex hins hbad hnd
    rw [List.cons_append] at hnd ⊢
    have hexs : remote.streamExists s = true := hex s (List.mem_cons_self _ _)
    have hnds : s ∉ pre2 ++ bad :: post := (List.nodup_cons.mp hnd).1
    have hnds2 : s ∉ pre2 := fun h2 => hnds (List.mem_append_left _ h2)
    have hndr : (pre2 ++ bad :: post).Nodup := (List.nodup_cons.mp hnd).2
    have hexr : ∀ s2 ∈ pre2, remote.streamExists s2 = true :=
      fun s2 h2 => hex s2 (List.mem_cons_of_mem _ h2)
    rcases hgl : (cacheSelect c s).getLast? with _ | lastp
    · have hbe : cacheSelect c s = [] := List.getLast?_eq_none_iff.mp hgl
      simp only [syncLoop, hexs, if_true, hgl]
      obtain ⟨ha, hb, hc⟩ := ih bad post c hexr hins hbad hndr
      refine ⟨ha, ?_, ?_⟩
      · rw [hb, List.filter_cons]
        simp [hbe]
      · intro s2 hs2
        rcases List.mem_cons.mp hs2 with rfl | h2
        · rw [cacheSelect_eq_nil_iff]
          intro p hp hps
          exact cacheSelect_nonempty_of_mem
            (syncLoop_cache_subset env remote _ c p hp) hps hbe
        · exact hc s2 h2
    · have hinss : remote.insertOk s ((cacheSelect c s).map (toDP env)) = true := hins _ _
      simp only [syncLoop, hexs, if_true, hgl, hinss]
      obtain ⟨ha, hb, hc⟩ := ih bad post (cacheDelete c s lastp.timestamp) hexr hins hbad hndr
      have hsel : ∀ s2 ∈ pre2,
          cacheSelect (cacheDelete c s lastp.timestamp) s2 = cacheSelect c s2 :=
        fun s2 h2 => cacheSelect_cacheDelete_ne (fun he => hnds2 (he ▸ h2))
      refine ⟨ha, ?_, ?_⟩
      · rw [hb, List.filter_cons]
        have hne : (cacheSelect c s).isEmpty = false := isEmpty_false_of_getLastOpt hgl
        simp only [hne, Bool.not_false, if_true, List.map_cons]
        congr 1
        rw [List.filter_congr (fun s2 h2 => by rw [hsel s2 h2])]
        apply List.map_congr_left
        intro s2 h2
        rw [hsel s2 (List.mem_of_mem_filter h2)]
      · intro s2 hs2
        rcases List.mem_cons.mp hs2 with rfl | h2
        · rw [cacheSelect_eq_nil_iff]
          intro p hp hps
          exact cacheSelect_nonempty_of_mem
            (syncLoop_cache_subset env remote _ _ p hp) hps
            (cacheSelect_cacheDelete_self hgl)
        · exact hc s2 h2

/-! ## Lemmas about upsert and the sync wrapper -/

theorem map_upsert {α β : Type} (f : α → β) (l : List (String × α)) (s : String) (v : α) :
    (upsert l s v).map (fun r => (r.1, f r.2)) =
      upsert (l.map (fun r => (r.1, f r.2))) s (f v) := by
  induction l with
  | nil => rfl
  | cons a t ih =>
    rcases a with ⟨k, w⟩
    by_cases hk : k = s
    · simp [upsert, hk]
    · simp [upsert, hk, ih]

theorem length_filter_self_eq_one {l : List String} (hnd : l.Nodup) {s : String} (hs : s ∈ l) :
    (l.filter (fun x => x = s)).length = 1 := by
  induction l with
  | nil => simp at hs
  | cons a t ih =>
    rw [List.filter_cons]
    have hat : a ∉ t := (List.nodup_cons.mp hnd).1
    have hndt : t.Nodup := (List.nodup_cons.mp hnd).2
    rcases List.mem_cons.mp hs with rfl | h2
    · have ht : t.filter (fun x => x = s) = [] := by
        rw [List.filter_eq_nil_iff]
        intro x hx hxs
        exact hat ((of_decide_eq_true hxs) ▸ hx)
      simp [ht]
    · have has : ¬(a = s) := fun he => hat (he ▸ h2)
      simp only [has, decide_False, Bool.false_eq_true, if_false]
      exact ih hndt h2

/-- When obtaining the endpoint handle fails, the attempt raises before
touching anything. -/
theorem syncAttempt_connect_fail (env : PyEnv) (remote : Remote env)
    (st : LoggerState env) (now : Nat) (h : remote.connectOk = false) :
    syncAttempt env remote st now = (st, [], some .connectFailed) := by
  unfold syncAttempt
  rw [h]
  simp

/-- When `ping()` fails, the attempt raises before touching anything. -/
theorem syncAttempt_ping_fail (env : PyEnv) (remote : Remote env)
    (st : LoggerState env) (now : Nat) (hc : remote.connectOk = true)
    (hp : remote.pingOk = false) :
    syncAttempt env remote st now = (st, [], some .pingFailed) := by
  unfold syncAttempt
  rw [hc, hp]
  simp

/-- When the try-block raises, the state it leaves behind differs from the
starting state at most in the cache table: in particular `lastsynctime`
was not advanced. -/
theorem syncAttempt_error_state (env : PyEnv) (remote : Remote env)
    (st : LoggerState env) (now : Nat) (e : SyncErr)
    (he : (syncAttempt env remote st now).2.2 = some e) :
    ∃ c, (syncAttempt env remote st now).1 = setCache env st c := by
  unfold syncAttempt at he ⊢
  by_cases hc : remote.connectOk = true
  · by_cases hp : remote.pingOk = true
    · simp only [hc, hp, if_true] at he ⊢
      rcases hl : syncLoop env remote (st.streams.map Prod.fst) st.db.cache with ⟨c2, ups, err⟩
      simp only [hl] at he ⊢
      cases err
      · simp at he
      · exact ⟨c2, rfl⟩
    · rw [Bool.not_eq_true] at hp
      simp only [hc, hp, Bool.false_eq_true, if_false, if_true]
      exact ⟨st.db.cache, rfl⟩
  · rw [Bool.not_eq_true] at hc
    simp only [hc, Bool.false_eq_true, if_false]
    exact ⟨st.db.cache, rfl⟩

/-- The state and uploads seen by the caller of `sync()` are those the
try-block left behind, whatever the failure handler does. -/
theorem sync_state_uploads (env : PyEnv) (remote : Remote env)
    (onsyncfail : Option (LoggerState env → Except String Bool))
    (st : LoggerState env) (now : Nat) :
    (sync env remote onsyncfail st now).2.1 = (syncAttempt env remote st now).1 ∧
    (sync env remote onsyncfail st now).2.2 = (syncAttempt env remote st now).2.1 := by
  unfold sync
  rcases hsa : syncAttempt env remote st now with ⟨st2, ups, err⟩
  cases err with
  | none => exact ⟨rfl, rfl⟩
  | some e =>
    cases onsyncfail with
    | none => exact ⟨rfl, rfl⟩
    | some f =>
      rcases hf : f st2 with msg | b
      · dsimp only
        rw [hf]
        exact ⟨rfl, rfl⟩
      · dsimp only
        rw [hf]
        cases b
        · exact ⟨rfl, rfl⟩
        · exact ⟨rfl, rfl⟩

/-- A clean cycle returns `success` to the caller, whatever handler is
installed. -/
theorem sync_success_outcome (env : PyEnv) (remote : Remote env)
    (onsyncfail : Option (LoggerState env → Except String Bool))
    (st : LoggerState env) (now : Nat)
    (h : (syncAttempt env remote st now).2.2 = none) :
    (sync env remote onsyncfail st now).1 = .success := by
  unfold sync
  rcases hsa : syncAttempt env remote st now with ⟨st2, ups, err⟩
  cases err with
  | none => rfl
  | some e =>
    rw [hsa] at h
    simp at h

/-- Reduction of the try-block through a known loop result. -/
theorem syncAttempt_components (env : PyEnv) (remote : Remote env)
    (st : LoggerState env) (now : Nat)
    (hc : remote.connectOk = true) (hp : remote.pingOk = true)
    {c2 : List Pt} {ups : List (Upload env)} {err : Option SyncErr}
    (hl : syncLoop env remote (st.streams.map Prod.fst) st.db.cache = (c2, ups, err)) :
    (err = none → syncAttempt env remote st now =
      (setLastsynctime env (setCache env st c2) now, ups, none)) ∧
    (∀ e, err = some e → syncAttempt env remote st now =
      (setCache env st c2, ups, some e)) := by
  constructor
  · intro h
    subst h
    unfold syncAttempt
    simp only [hc, hp, if_true]
    rw [hl]
  · intro e h
    subst h
    unfold syncAttempt
    simp only [hc, hp, if_true]
    rw [hl]

/-- When the try-block succeeds, the state it leaves behind is the starting
state with a new cache and `lastsynctime` advanced to `now`. -/
theorem syncAttempt_none_state (env : PyEnv) (remote : Remote env)
    (st : LoggerState env) (now : Nat)
    (he : (syncAttempt env remote st now).2.2 = none) :
    ∃ c, (syncAttempt env remote st now).1 = setLastsynctime env (setCache env st c) now := by
  unfold syncAttempt at he ⊢
  by_cases hc : remote.connectOk = true
  · by_cases hp : remote.pingOk = true
    · simp only [hc, hp, if_true] at he ⊢
      rcases hl : syncLoop env remote (st.streams.map Prod.fst) st.db.cache with ⟨c2, ups, err⟩
      simp only [hl] at he ⊢
      cases err
      · exact ⟨c2, rfl⟩
      · simp at he
    · rw [Bool.not_eq_true] at hp
      simp only [hc, hp, Bool.false_eq_true, if_false, if_true] at he
      simp at he
  · rw [Bool.not_eq_true] at hc
    simp only [hc, Bool.false_eq_true, if_false] at he
    simp at he

/-- A successful `insert` appends exactly one row to the cache and changes
nothing else. -/
theorem insert_ok_shape (env : PyEnv) (st : LoggerState env) (s : String)
    (v : env.Val) (now : Nat) (st2 : LoggerState env)
    (h : insert env st s v now = .ok st2) :
    st2 = { st with db := { st.db with cache := st.db.cache ++ [⟨s, now, env.dumps v⟩] } } := by
  unfold insert at h
  rcases hl : lookupStream st.streams s with _ | schema
  · rw [hl] at h
    exact Except.noConfusion h
  · rw [hl] at h
    dsimp only at h
    by_cases hv : env.validate v schema = true
    · rw [hv] at h
      simp only [if_true] at h
      cases h
      rfl
    · rw [Bool.not_eq_true] at hv
      rw [hv] at h
      simp at h

/-! ## Claim theorems -/

/-- C1: in a sync cycle in which the upload for a stream succeeds, exactly
the pending points of that stream with timestamp at most the last uploaded
point's timestamp are deleted; every point with a strictly greater
timestamp — including any row a concurrent `insert` appended between the
batch read and the delete (`extra`) — stays in the buffer, and points of
other streams are untouched by the deletion. -/
theorem C1_successful_upload_deletes_exactly_upto_last (env : PyEnv) (remote : Remote env)
    (extra cache : List Pt) (s : String) (lastp : Pt) (cache2 : List Pt)
    (hgl : (cacheSelect cache s).getLast? = some lastp)
    (hok : streamCycle env remote extra cache s = .ok cache2) :
    ∀ p ∈ cache ++ extra,
      (p ∈ cache2 ↔ p.stream ≠ s ∨ lastp.timestamp < p.timestamp) := by
  by_cases hex : remote.streamExists s = true
  · by_cases hins : remote.insertOk s ((cacheSelect cache s).map (toDP env)) = true
    · simp only [streamCycle, hex, if_true, hgl, hins] at hok
      cases hok
      intro p hp
      rw [mem_cacheDelete]
      constructor
      · rintro ⟨-, hno⟩
        by_cases hps : p.stream = s
        · exact Or.inr (Nat.lt_of_not_le (fun hle => hno ⟨hps, hle⟩))
        · exact Or.inl hps
      · intro hcase
        refine ⟨hp, ?_⟩
        rintro ⟨hps, hle⟩
        rcases hcase with hns | hlt
        · exact hns hps
        · exact Nat.not_le_of_lt hlt hle
    · rw [Bool.not_eq_true] at hins
      simp only [streamCycle, hex, if_true, hgl, hins, Bool.false_eq_true, if_false] at hok
      simp at hok
  · rw [Bool.not_eq_true] at hex
    simp only [streamCycle, hex, Bool.false_eq_true, if_false] at hok
    simp at hok

/-- C1 witness: a concrete successful per-stream cycle, with one
concurrently inserted later point surviving the delete. -/
theorem C1_witness :
    (cacheSelect stPending.db.cache "temp").getLast? = some ⟨"temp", 5, "v1"⟩ ∧
    streamCycle strEnv remoteOk [⟨"temp", 9, "late"⟩] stPending.db.cache "temp" =
      .ok [⟨"gone", 4, "w"⟩, ⟨"temp", 9, "late"⟩] ∧
    ((⟨"temp", 9, "late"⟩ : Pt) ∈ ([⟨"gone", 4, "w"⟩, ⟨"temp", 9, "late"⟩] : List Pt) ↔
      (⟨"temp", 9, "late"⟩ : Pt).stream ≠ "temp" ∨
        (5 : Nat) < (⟨"temp", 9, "late"⟩ : Pt).timestamp) := by
  refine ⟨rfl, rfl, ?_⟩
  exact C1_successful_upload_deletes_exactly_upto_last strEnv remoteOk
    [⟨"temp", 9, "late"⟩] stPending.db.cache "temp" ⟨"temp", 5, "v1"⟩
    [⟨"gone", 4, "w"⟩, ⟨"temp", 9, "late"⟩] rfl rfl
    ⟨"temp", 9, "late"⟩ (by simp [stPending])

/-- C3: when obtaining the endpoint handle or the initial ping fails and no
failure handler is installed, `sync()` raises the corresponding error and
the persistent store is returned exactly as it was: same state (hence no
pending point added or deleted), same `pendingCount`, `lastsynctime` not
advanced, and no upload was attempted. -/
theorem C3_unreachable_aborts_before_touching_store (env : PyEnv) (remote : Remote env)
    (st : LoggerState env) (now : Nat)
    (hfail : remote.connectOk = false ∨ (remote.connectOk = true ∧ remote.pingOk = false)) :
    ∃ e : SyncErr, (e = SyncErr.connectFailed ∨ e = SyncErr.pingFailed) ∧
      sync env remote none st now = (.raised e, st, []) ∧
      pendingCount (sync env remote none st now).2.1 = pendingCount st ∧
      (sync env remote none st now).2.1.lastsync = st.lastsync := by
  have key : ∃ e : SyncErr, (e = SyncErr.connectFailed ∨ e = SyncErr.pingFailed) ∧
      syncAttempt env remote st now = (st, [], some e) := by
    rcases hfail with hcf | ⟨hc, hp⟩
    · exact ⟨.connectFailed, Or.inl rfl, syncAttempt_connect_fail env remote st now hcf⟩
    · exact ⟨.pingFailed, Or.inr rfl, syncAttempt_ping_fail env remote st now hc hp⟩
  obtain ⟨e, hor, hsa⟩ := key
  have hs : sync env remote none st now = (.raised e, st, []) := by
    unfold sync
    rw [hsa]
  exact ⟨e, hor, hs, by rw [hs], by rw [hs]⟩

/-- C3 witness: ping failure on a concrete state. -/
theorem C3_witness :
    sync strEnv remotePingFail none stPending 42 = (.raised .pingFailed, stPending, []) ∧
    pendingCount (sync strEnv remotePingFail none stPending 42).2.1 = pendingCount stPending ∧
    (sync strEnv remotePingFail none stPending 42).2.1.lastsync = stPending.lastsync := by
  obtain ⟨e, hor, hs, hc, hl⟩ :=
    C3_unreachable_aborts_before_touching_store strEnv remotePingFail stPending 42
      (Or.inr ⟨rfl, rfl⟩)
  exact ⟨rfl, hc, hl⟩

/-- C5: `insert` fails naming the stream when it is unregistered, fails
without buffering when validation rejects the value, and on success
appends exactly one pending point timestamped with the local clock
reading, growing `pendingCount` by one; it never consults the remote
endpoint (its definition takes none). -/
theorem C5_insert_contract (env : PyEnv) (st : LoggerState env) (s : String)
    (v : env.Val) (now : Nat) :
    (lookupStream st.streams s = none →
      insert env st s v now = .error (.streamNotFound s)) ∧
    (∀ schema, lookupStream st.streams s = some schema → env.validate v schema = false →
      insert env st s v now = .error .validationFailed) ∧
    (∀ schema, lookupStream st.streams s = some schema → env.validate v schema = true →
      insert env st s v now =
        .ok { st with db := { st.db with cache := st.db.cache ++ [⟨s, now, env.dumps v⟩] } }) ∧
    (∀ st2, insert env st s v now = .ok st2 →
      st2.db.cache = st.db.cache ++ [⟨s, now, env.dumps v⟩] ∧
      pendingCount st2 = pendingCount st + 1 ∧
      st2.streams = st.streams ∧ st2.lastsync = st.lastsync) := by
  refine ⟨?_, ?_, ?_, ?_⟩
  · intro h
    unfold insert
    rw [h]
  · intro schema hs hv
    unfold insert
    rw [hs]
    dsimp only
    rw [hv]
    simp
  · intro schema hs hv
    unfold insert
    rw [hs]
    dsimp only
    rw [hv]
    simp
  · intro st2 hok
    unfold insert at hok
    rcases hl : lookupStream st.streams s with _ | schema
    · rw [hl] at hok
      exact Except.noConfusion hok
    · rw [hl] at hok
      dsimp only at hok
      by_cases hv : env.validate v schema = true
      · rw [hv] at hok
        simp only [if_true] at hok
        cases hok
        refine ⟨rfl, ?_, rfl, rfl⟩
        simp [pendingCount]
      · rw [Bool.not_eq_true] at hv
        rw [hv] at hok
        simp at hok

/-- C5 witness: a not-found failure, a validation failure (over the
null-rejecting validator), and a successful insert growing the count. -/
theorem C5_witness :
    insert strEnv stTemp "missing" "x" 7 = .error (.streamNotFound "missing") ∧
    insert nullRejectEnv stNRnull "t" "5" 7 = .error .validationFailed ∧
    insert strEnv stTemp "temp" "x" 7 =
      .ok { stTemp with db := { stTemp.db with
              cache := stTemp.db.cache ++ [⟨"temp", 7, "x"⟩] } } ∧
    pendingCount { stTemp with db := { stTemp.db with
        cache := stTemp.db.cache ++ [⟨"temp", 7, "x"⟩] } } = pendingCount stTemp + 1 := by
  refine ⟨?_, ?_, ?_, ?_⟩
  · exact (C5_insert_contract strEnv stTemp "missing" "x" 7).1 rfl
  · exact (C5_insert_contract nullRejectEnv stNRnull "t" "5" 7).2.1 nullRejectEnv.pyNone rfl rfl
  · exact (C5_insert_contract strEnv stTemp "temp" "x" 7).2.2.1 "tsch" rfl rfl
  · exact ((C5_insert_contract strEnv stTemp "temp" "x" 7).2.2.2 _
      ((C5_insert_contract strEnv stTemp "temp" "x" 7).2.2.1 "tsch" rfl rfl)).2.1

/-- C6 counterexample: for a stream registered with the absent (`None`)
schema, `insert` does not skip validation — it hands the `None` schema to
the validator, and with the validator behaving as `jsonschema.validate`
does on a `None` schema (it raises), the insert raises a validation error
and buffers nothing, refuting "every value is accepted and buffered". -/
theorem C6_counterexample :
    lookupStream stNRnull.streams "t" = some nullRejectEnv.pyNone ∧
    insert nullRejectEnv stNRnull "t" "5" 0 = .error .validationFailed ∧
    pendingCount stNRnull = 0 := by
  exact ⟨rfl, rfl, rfl⟩

/-- C6 (amended): for a stream registered with an absent (`None`) schema,
`insert` passes the absent schema to the validator instead of skipping
validation; the value is accepted and buffered exactly when the validator
accepts it against the `None` schema, and rejected with a validation
error otherwise. -/
theorem C6_amended_null_schema_is_still_validated (env : PyEnv) (st : LoggerState env)
    (s : String) (v : env.Val) (now : Nat)
    (h : lookupStream st.streams s = some env.pyNone) :
    insert env st s v now =
      (if env.validate v env.pyNone then
        .ok { st with db := { st.db with cache := st.db.cache ++ [⟨s, now, env.dumps v⟩] } }
      else .error .validationFailed) := by
  unfold insert
  rw [h]

/-- C6 (amended) witness: under the all-accepting validator the value is
buffered; under the null-rejecting one it is refused. -/
theorem C6_amended_witness :
    insert strEnv stNull "t" "5" 0 =
      .ok { stNull with db := { stNull.db with cache := stNull.db.cache ++ [⟨"t", 0, "5"⟩] } } ∧
    insert nullRejectEnv stNRnull "t" "5" 0 = .error .validationFailed := by
  constructor
  · have h := C6_amended_null_schema_is_still_validated strEnv stNull "t" "5" 0 rfl
    simpa using h
  · have h := C6_amended_null_schema_is_still_validated nullRejectEnv stNRnull "t" "5" 0 rfl
    simpa using h

/-- C10: when the installed failure handler itself raises, its exception
propagates out of `sync()` in place of the original error (the outcome
records only the handler's message, not the original error), and
`lastsynctime` is not advanced. -/
theorem C10_handler_exception_replaces_original (env : PyEnv) (remote : Remote env)
    (st : LoggerState env) (now : Nat) (e : SyncErr)
    (f : LoggerState env → Except String Bool) (msg : String)
    (he : (syncAttempt env remote st now).2.2 = some e)
    (hf : f (syncAttempt env remote st now).1 = .error msg) :
    (sync env remote (some f) st now).1 = .handlerRaised msg ∧
    (sync env remote (some f) st now).2.1.lastsync = st.lastsync ∧
    (sync env remote (some f) st now).2.1.db.lastsynctimeDB = st.db.lastsynctimeDB := by
  obtain ⟨c, hcq⟩ := syncAttempt_error_state env remote st now e he
  have hst := (sync_state_uploads env remote (some f) st now).1
  refine ⟨?_, ?_, ?_⟩
  · unfold sync
    rcases hsa : syncAttempt env remote st now with ⟨st2, ups, err⟩
    rw [hsa] at he hf
    simp only at he hf
    subst he
    dsimp only
    rw [hf]
  · rw [hst, hcq]
    rfl
  · rw [hst, hcq]
    rfl

/-- C10 witness: ping fails, the handler raises `"boom"`. -/
theorem C10_witness :
    (sync strEnv remotePingFail (some handlerBoom) stPending 42).1 = .handlerRaised "boom" ∧
    (sync strEnv remotePingFail (some handlerBoom) stPending 42).2.1.lastsync =
      stPending.lastsync := by
  obtain ⟨h1, h2, h3⟩ := C10_handler_exception_replaces_original strEnv remotePingFail
    stPending 42 .pingFailed handlerBoom "boom" rfl rfl
  exact ⟨h1, h2⟩

/-- C4: for every exception raised inside a sync cycle, with no handler
installed the exception propagates to the caller; with a handler
installed, the handler is applied to the Logger and `sync()` re-raises the
original error exactly when the handler returns true; when the handler
returns false, `sync()` returns normally and `lastsynctime` is not
advanced. -/
theorem C4_failure_handler_contract (env : PyEnv) (remote : Remote env)
    (st : LoggerState env) (now : Nat) (e : SyncErr)
    (he : (syncAttempt env remote st now).2.2 = some e) :
    ((sync env remote none st now).1 = .raised e) ∧
    (∀ f : LoggerState env → Except String Bool,
      ((sync env remote (some f) st now).1 = .raised e ↔
        f (syncAttempt env remote st now).1 = .ok true)) ∧
    (∀ f : LoggerState env → Except String Bool,
      f (syncAttempt env remote st now).1 = .ok false →
      (sync env remote (some f) st now).1 = .suppressed e ∧
      (sync env remote (some f) st now).1.isNormal = true ∧
      (sync env remote (some f) st now).2.1.lastsync = st.lastsync ∧
      (sync env remote (some f) st now).2.1.db.lastsynctimeDB = st.db.lastsynctimeDB) := by
  obtain ⟨c, hcq⟩ := syncAttempt_error_state env remote st now e he
  have hred : ∀ f : LoggerState env → Except String Bool,
      (sync env remote (some f) st now).1 =
        (match f (syncAttempt env remote st now).1 with
         | .error msg => SyncOutcome.handlerRaised msg
         | .ok true => SyncOutcome.raised e
         | .ok false => SyncOutcome.suppressed e) := by
    intro f
    unfold sync
    rcases hsa : syncAttempt env remote st now with ⟨st2, ups, err⟩
    rw [hsa] at he
    simp only at he
    subst he
    dsimp only
    rcases hfv : f st2 with msg | b
    · rfl
    · cases b
      · rfl
      · rfl
  refine ⟨?_, ?_, ?_⟩
  · unfold sync
    rcases hsa : syncAttempt env remote st now with ⟨st2, ups, err⟩
    rw [hsa] at he
    simp only at he
    subst he
    rfl
  · intro f
    rw [hred f]
    constructor
    · intro hr
      rcases hfv : f (syncAttempt env remote st now).1 with msg | b
      · rw [hfv] at hr
        exact absurd hr (by simp)
      · cases b
        · rw [hfv] at hr
          exact absurd hr (by simp)
        · rfl
    · intro hf
      rw [hf]
  · intro f hf
    have hst := (sync_state_uploads env remote (some f) st now).1
    refine ⟨?_, ?_, ?_, ?_⟩
    · rw [hred f, hf]
    · rw [hred f, hf]
      rfl
    · rw [hst, hcq]
      rfl
    · rw [hst, hcq]
      rfl

/-- C4 witness: ping failure with no handler, a re-raising handler, and a
suppressing handler, on a concrete state. -/
theorem C4_witness :
    (sync strEnv remotePingFail none stPending 42).1 = .raised .pingFailed ∧
    (sync strEnv remotePingFail (some handlerTrue) stPending 42).1 = .raised .pingFailed ∧
    (sync strEnv remotePingFail (some handlerFalse) stPending 42).1 = .suppressed .pingFailed ∧
    (sync strEnv remotePingFail (some handlerFalse) stPending 42).2.1.lastsync =
      stPending.lastsync := by
  obtain ⟨h1, h2, h3⟩ :=
    C4_failure_handler_contract strEnv remotePingFail stPending 42 .pingFailed rfl
  obtain ⟨ha, hb, hcl, hd⟩ := h3 handlerFalse rfl
  exact ⟨h1, (h2 handlerTrue).mpr rfl, ha, hcl⟩

/-- C8: behaviour of the scheduler at the racy interleaving.  `stop()`
does cancel and clear the pending timer and is idempotent; but when a
timer-triggered sync cycle was in progress at the moment of `stop()`, the
cycle's completion (`__runsyncer` calling `__setsync` unconditionally)
re-arms the timer, so a further sync cycle can begin with no intervening
`start()` — the claim's "no further sync cycle begins until `start()`"
fails on the code. -/
theorem C8_stop_raced_by_inflight_cycle_rearms :
    (schedRun schedInit [.start, .timerFire, .stop]).syncthread = none ∧
    schedStep (schedStep schedInit .stop) .stop = schedStep schedInit .stop ∧
    (schedRun schedInit [.start, .timerFire, .stop, .cycleComplete]).syncthread =
      some .pending ∧
    fireEnabled (schedRun schedInit [.start, .timerFire, .stop, .cycleComplete]) = true := by
  exact ⟨rfl, rfl, rfl, rfl⟩

/-- C9: every public mutating operation of the Logger leaves the in-memory
caches equal to storage: the streams dict mirrors the streams table and
the cached apikey/serverurl/lastsynctime/syncperiod equal the metadata
row. -/
theorem C9_caches_equal_storage (env : PyEnv) (op : LoggerOp env) (st : LoggerState env)
    (hrt : ∀ v, env.loads (env.dumps v) = v)
    (hcons : consistent env st) :
    consistent env (applyOp env op st) := by
  obtain ⟨h1, h2, h3, h4, h5⟩ := hcons
  cases op with
  | addStreamForceOp s schema =>
    refine ⟨?_, h2, h3, h4, h5⟩
    show upsert st.streams s schema =
      (upsert st.db.streamsTable s (env.dumps schema)).map (fun r => (r.1, env.loads r.2))
    rw [map_upsert, hrt, ← h1]
  | insertOp s v now =>
    rcases h : insert env st s v now with e | st2
    · show consistent env (match insert env st s v now with
        | .ok st3 => st3
        | .error _ => st)
      rw [h]
      exact ⟨h1, h2, h3, h4, h5⟩
    · have hsh := insert_ok_shape env st s v now st2 h
      show consistent env (match insert env st s v now with
        | .ok st3 => st3
        | .error _ => st)
      rw [h]
      rw [hsh]
      exact ⟨h1, h2, h3, h4, h5⟩
  | syncOp remote f now =>
    show consistent env (sync env remote f st now).2.1
    rw [(sync_state_uploads env remote f st now).1]
    rcases he : (syncAttempt env remote st now).2.2 with _ | e
    · obtain ⟨c, hcq⟩ := syncAttempt_none_state env remote st now he
      rw [hcq]
      exact ⟨h1, h2, h3, rfl, h5⟩
    · obtain ⟨c, hcq⟩ := syncAttempt_error_state env remote st now e he
      rw [hcq]
      exact ⟨h1, h2, h3, h4, h5⟩
  | setApikeyOp v => exact ⟨h1, rfl, h3, h4, h5⟩
  | setServerurlOp v => exact ⟨h1, h2, rfl, h4, h5⟩
  | setSyncperiodOp v => exact ⟨h1, h2, h3, h4, rfl⟩
  | setLastsynctimeOp v => exact ⟨h1, h2, h3, rfl, h5⟩
  | setDataOp v => exact ⟨h1, h2, h3, h4, h5⟩

/-- C9 witness: a full sync cycle on a concrete consistent state keeps the
caches equal to storage. -/
theorem C9_witness :
    consistent strEnv (applyOp strEnv (.syncOp remoteOk none 100) stPending) :=
  C9_caches_equal_storage strEnv (.syncOp remoteOk none 100) stPending
    (fun _ => rfl) ⟨rfl, rfl, rfl, rfl, rfl⟩

/-- C7: when a registered stream is missing remotely mid-cycle, the cycle
fails immediately with an error naming that stream (propagating when no
handler is installed); only streams iterated earlier were uploaded, their
deletions remain (their pending points are gone), points of every other
stream are untouched, and `lastsynctime` is not advanced. -/
theorem C7_missing_stream_fails_cycle (env : PyEnv) (remote : Remote env)
    (st : LoggerState env) (now : Nat) (pre post : List String) (bad : String)
    (hkeys : st.streams.map Prod.fst = pre ++ bad :: post)
    (hc : remote.connectOk = true) (hp : remote.pingOk = true)
    (hex : ∀ s ∈ pre, remote.streamExists s = true)
    (hins : ∀ s arr, remote.insertOk s arr = true)
    (hbad : remote.streamExists bad = false)
    (hnd : (pre ++ bad :: post).Nodup) :
    (sync env remote none st now).1 = .raised (.streamMissing bad) ∧
    (sync env remote none st now).2.2 =
      (pre.filter (fun s => !(cacheSelect st.db.cache s).isEmpty)).map
        (fun s => (s, (cacheSelect st.db.cache s).map (toDP env))) ∧
    (∀ u ∈ (sync env remote none st now).2.2, u.1 ∈ pre) ∧
    (∀ p ∈ st.db.cache, p.stream ∉ pre → p ∈ (sync env remote none st now).2.1.db.cache) ∧
    (∀ p ∈ st.db.cache, p.stream ∈ pre → p ∉ (sync env remote none st now).2.1.db.cache) ∧
    (sync env remote none st now).2.1.lastsync = st.lastsync ∧
    (sync env remote none st now).2.1.db.lastsynctimeDB = st.db.lastsynctimeDB := by
  rcases hl : syncLoop env remote (st.streams.map Prod.fst) st.db.cache with ⟨c2, ups, err⟩
  have hlK := hl
  rw [hkeys] at hlK
  have hloop := syncLoop_error_at env remote pre bad post st.db.cache hex hins hbad hnd
  rw [hlK] at hloop
  obtain ⟨hE, hU, hD⟩ := hloop
  simp only at hE hU hD
  subst hE
  have hsa := (syncAttempt_components env remote st now hc hp hl).2 (.streamMissing bad) rfl
  have hsync : sync env remote none st now =
      (.raised (.streamMissing bad), setCache env st c2, ups) := by
    unfold sync
    rw [hsa]
  refine ⟨by rw [hsync], by rw [hsync]; exact hU, ?_, ?_, ?_,
    by rw [hsync]; rfl, by rw [hsync]; rfl⟩
  · intro u hu
    rw [hsync] at hu
    rw [hU] at hu
    obtain ⟨s2, hs2, hq⟩ := List.mem_map.mp hu
    have : u.1 = s2 := by rw [← hq]
    rw [this]
    exact List.mem_of_mem_filter hs2
  · intro p hp2 hnp
    rw [hsync]
    have h2 := syncLoop_survives env remote (pre ++ bad :: post) st.db.cache p hp2
    rw [hlK] at h2
    apply h2
    intro u hu heq
    rw [hU] at hu
    obtain ⟨s2, hs2, hq⟩ := List.mem_map.mp hu
    have hu1 : u.1 = s2 := by rw [← hq]
    exact hnp (heq ▸ hu1 ▸ List.mem_of_mem_filter hs2)
  · intro p hp2 hin hmem
    rw [hsync] at hmem
    exact cacheSelect_nonempty_of_mem hmem rfl (hD p.stream hin)

/-- C7 witness: streams `["temp", "gone"]` with `"gone"` deleted remotely;
`"temp"` was uploaded and drained, `"gone"` is untouched and the error
names it. -/
theorem C7_witness :
    (sync strEnv remoteGoneMissing none stPending 77).1 = .raised (.streamMissing "gone") ∧
    (sync strEnv remoteGoneMissing none stPending 77).2.2 =
      [("temp", [(3, "v2"), (5, "v1")])] ∧
    ((⟨"gone", 4, "w"⟩ : Pt) ∈ (sync strEnv remoteGoneMissing none stPending 77).2.1.db.cache) ∧
    ((⟨"temp", 5, "v1"⟩ : Pt) ∉ (sync strEnv remoteGoneMissing none stPending 77).2.1.db.cache) ∧
    (sync strEnv remoteGoneMissing none stPending 77).2.1.lastsync = stPending.lastsync := by
  obtain ⟨h1, h2, h3, h4, h5, h6, h7⟩ :=
    C7_missing_stream_fails_cycle strEnv remoteGoneMissing stPending 77 ["temp"] [] "gone"
      rfl rfl rfl (by decide) (fun s arr => rfl) rfl (by decide)
  refine ⟨h1, ?_, ?_, ?_, h6⟩
  · rw [h2]
    rfl
  · exact h4 ⟨"gone", 4, "w"⟩ (by decide) (by decide)
  · exact h5 ⟨"temp", 5, "v1"⟩ (by decide) (by decide)

/-- C2: during one sync cycle against a reachable endpoint on which every
registered stream exists and every append is accepted, the engine returns
success and performs, for each registered stream with pending points,
exactly one append whose array is that stream's pending batch in
non-decreasing timestamp order, each element carrying the insertion
timestamp and the `loads`/`dumps` round-trip of the inserted value; a
stream with no pending points causes no append and no delete, and a
second `sync()` with no intervening inserts uploads nothing and returns
success. -/
theorem C2_sync_upload_contract (env : PyEnv) (remote : Remote env)
    (onsyncfail : Option (LoggerState env → Except String Bool))
    (st : LoggerState env) (now now2 : Nat)
    (hrt : ∀ v, env.loads (env.dumps v) = v)
    (hc : remote.connectOk = true) (hp : remote.pingOk = true)
    (hex : ∀ s ∈ st.streams.map Prod.fst, remote.streamExists s = true)
    (hins : ∀ s arr, remote.insertOk s arr = true)
    (hnd : (st.streams.map Prod.fst).Nodup) :
    (sync env remote onsyncfail st now).1 = .success ∧
    (sync env remote onsyncfail st now).2.2 =
      ((st.streams.map Prod.fst).filter (fun s => !(cacheSelect st.db.cache s).isEmpty)).map
        (fun s => (s, (cacheSelect st.db.cache s).map (toDP env))) ∧
    (∀ s ∈ st.streams.map Prod.fst, cacheSelect st.db.cache s ≠ [] →
      (((sync env remote onsyncfail st now).2.2).filter (fun u => u.1 = s)).length = 1) ∧
    (∀ u ∈ (sync env remote onsyncfail st now).2.2,
      List.Sorted (· ≤ ·) (u.2.map Prod.fst) ∧
      ∀ d ∈ u.2, ∃ p, p ∈ st.db.cache ∧ p.stream = u.1 ∧
        d = (p.timestamp, env.loads p.jsondata)) ∧
    (∀ s ∈ st.streams.map Prod.fst, cacheSelect st.db.cache s = [] →
      s ∉ ((sync env remote onsyncfail st now).2.2).map Prod.fst) ∧
    (∀ p ∈ st.db.cache, p.stream ∉ ((sync env remote onsyncfail st now).2.2).map Prod.fst →
      p ∈ (sync env remote onsyncfail st now).2.1.db.cache) ∧
    (∀ (v : env.Val) (t : Nat) (sn : String), toDP env ⟨sn, t, env.dumps v⟩ = (t, v)) ∧
    ((sync env remote onsyncfail (sync env remote onsyncfail st now).2.1 now2).2.2 = [] ∧
      (sync env remote onsyncfail (sync env remote onsyncfail st now).2.1 now2).1 =
        .success) := by
  rcases hl : syncLoop env remote (st.streams.map Prod.fst) st.db.cache with ⟨c2, ups, err⟩
  have hloop := syncLoop_success env remote (st.streams.map Prod.fst) st.db.cache hex hins hnd
  rw [hl] at hloop
  obtain ⟨hE, hU, hDrain⟩ := hloop
  simp only at hE hU hDrain
  subst hE
  have hsa := (syncAttempt_components env remote st now hc hp hl).1 rfl
  have hsync : sync env remote onsyncfail st now =
      (.success, setLastsynctime env (setCache env st c2) now, ups) := by
    unfold sync
    rw [hsa]
  refine ⟨by rw [hsync], by rw [hsync]; exact hU, ?_, ?_, ?_, ?_, ?_, ?_⟩
  · intro s hs hne
    rw [hsync]
    have hpred : (cacheSelect st.db.cache s).isEmpty = false := by
      rcases hxx : cacheSelect st.db.cache s with _ | ⟨a, t⟩
      · exact absurd hxx hne
      · rfl
    show (ups.filter (fun u => u.1 = s)).length = 1
    rw [hU, List.filter_map, List.length_map]
    have hfc : List.filter
        ((fun (u : Upload env) => decide (u.1 = s)) ∘
          (fun s2 => (s2, (cacheSelect st.db.cache s2).map (toDP env))))
        ((st.streams.map Prod.fst).filter (fun s2 => !(cacheSelect st.db.cache s2).isEmpty)) =
        List.filter (fun x => decide (x = s))
        ((st.streams.map Prod.fst).filter (fun s2 => !(cacheSelect st.db.cache s2).isEmpty)) :=
      List.filter_congr (fun x _ => rfl)
    rw [hfc]
    apply length_filter_self_eq_one (List.Nodup.filter _ hnd)
    exact List.mem_filter.mpr ⟨hs, by rw [hpred]; rfl⟩
  · intro u hu
    rw [hsync] at hu
    rw [hU] at hu
    obtain ⟨s2, hs2, hq⟩ := List.mem_map.mp hu
    subst hq
    constructor
    · show List.Sorted (· ≤ ·)
        (((cacheSelect st.db.cache s2).map (toDP env)).map Prod.fst)
      rw [List.map_map]
      exact List.Pairwise.map _ (fun a b hab => hab) (cacheSelect_sorted st.db.cache s2)
    · intro d hd
      have hd2 : d ∈ (cacheSelect st.db.cache s2).map (toDP env) := hd
      obtain ⟨p, hp2, hq2⟩ := List.mem_map.mp hd2
      have hmem := mem_cacheSelect.mp hp2
      refine ⟨p, hmem.1, hmem.2, ?_⟩
      rw [← hq2]
      rfl
  · intro s hs hempty hcontra
    rw [hsync] at hcontra
    rw [hU, List.map_map] at hcontra
    obtain ⟨s2, hs2, hq⟩ := List.mem_map.mp hcontra
    have hq2 : s2 = s := hq
    subst hq2
    have hsf := List.mem_filter.mp hs2
    rw [hempty] at hsf
    simp at hsf
  · intro p hp2 hnup
    rw [hsync] at hnup ⊢
    show p ∈ c2
    have h2 := syncLoop_survives env remote (st.streams.map Prod.fst) st.db.cache p hp2
    rw [hl] at h2
    apply h2
    intro u hu heq
    exact hnup (List.mem_map.mpr ⟨u, hu, heq.symm⟩)
  · intro v t sn
    show (t, env.loads (env.dumps v)) = (t, v)
    rw [hrt v]
  · have hdr : syncLoop env remote
        ((setLastsynctime env (setCache env st c2) now).streams.map Prod.fst)
        (setLastsynctime env (setCache env st c2) now).db.cache = (c2, [], none) := by
      show syncLoop env remote (st.streams.map Prod.fst) c2 = (c2, [], none)
      exact syncLoop_drained env remote _ c2 hex hDrain
    have hsa2 := (syncAttempt_components env remote
      (setLastsynctime env (setCache env st c2) now) now2 hc hp hdr).1 rfl
    rw [hsync]
    constructor
    · rw [(sync_state_uploads env remote onsyncfail
        (setLastsynctime env (setCache env st c2) now) now2).2, hsa2]
    · apply sync_success_outcome
      rw [hsa2]

/-- C2 witness: the out-of-order inserts of `stPending` are uploaded as a
single sorted batch per stream; the immediately following cycle uploads
nothing and succeeds. -/
theorem C2_witness :
    (sync strEnv remoteOk none stPending 100).1 = .success ∧
    (sync strEnv remoteOk none stPending 100).2.2 =
      [("temp", [(3, "v2"), (5, "v1")]), ("gone", [(4, "w")])] ∧
    (sync strEnv remoteOk none (sync strEnv remoteOk none stPending 100).2.1 200).2.2 = [] ∧
    (sync strEnv remoteOk none (sync strEnv remoteOk none stPending 100).2.1 200).1 =
      .success := by
  obtain ⟨h1, h2, h3, h4, h5, h6, h7, h8⟩ :=
    C2_sync_upload_contract strEnv remoteOk none stPending 100 200 (fun _ => rfl)
      rfl rfl (by decide) (fun s arr => rfl) (by decide)
  refine ⟨h1, ?_, h8.1, h8.2⟩
  rw [h2]
  rfl

end ConnectorDBLogger
